import Mathlib

/-!
Shallow embedding of `src/github_api.rs` from the ghcrawl repository.

The embedded pieces:

* `windows` — the star-range bisection performed by `GithubApi::get_repositories`
  (`futures::stream::unfold` over `max_stars`, emitting the derived query
  `[max_stars / 2, max_stars]` and passing `max_stars / 2` on as the next state,
  stopping when `max_stars / 2 < min_stars`).
* `pageStream` — the pagination primitive `page_stream`
  (`futures::stream::unfold` over `Option<page>`, starting at page 1, stopping
  after the fetched page when `page == 10` or the page is short).  Alongside the
  yielded items it records the trace of page numbers actually fetched.
* `getReset`, `tryGetFromUrl`, `getFromUrlLoop` — the transport: wait-time
  computation from the `X-RateLimit-Reset` header with Rust `u64` wrapping
  arithmetic, the single-attempt classification, and the unbounded retry loop
  driven by a list of simulated responses for one URL.
-/

namespace Ghcrawl

/-- Constant `PER_PAGE` from `github_api.rs` (`const PER_PAGE: usize = 100`). -/
def PER_PAGE : ℕ := 100

/-- Modulus of Rust's `u64` type, used for its wrapping arithmetic. -/
def U64MOD : ℕ := 2 ^ 64

/-- Struct `Repository` from `github_api.rs` (the fields consumed from the
search response). -/
structure Repository where
  full_name : String
  stargazers_count : ℕ
deriving DecidableEq

/-- Fuel-driven unfolding of the bisection loop inside
`GithubApi::get_repositories`.  The state is the current `max_stars`; one step
sets `q.max_stars := state`, `q.min_stars := state / 2`, stops if
`state / 2 < min_stars`, and otherwise emits the window `(state / 2, state)`
and continues with state `state / 2`.  The fuel only serves termination of the
Lean recursion; for `1 ≤ minStars` the source loop stops after at most
`maxStars` halvings, so fuel `maxStars + 1` (used by `windows`) is never
exhausted. -/
def windowsAux (minStars : ℕ) : ℕ → ℕ → List (ℕ × ℕ)
  | 0, _ => []
  | fuel + 1, maxStars =>
    if maxStars / 2 < minStars then []
    else (maxStars / 2, maxStars) :: windowsAux minStars fuel (maxStars / 2)

/-- The sequence of star windows `(min_stars, max_stars)` of the derived
queries issued by `GithubApi::get_repositories` for a starting query with the
given bounds. -/
def windows (minStars maxStars : ℕ) : List (ℕ × ℕ) :=
  windowsAux minStars (maxStars + 1) maxStars

/-- Membership of a star count in a closed window, matching the inclusive
`stars:lo..hi` qualifier built by `get_repositories_at_page`. -/
def inWindow (s : ℕ) (w : ℕ × ℕ) : Prop :=
  w.1 ≤ s ∧ s ≤ w.2

instance (s : ℕ) (w : ℕ × ℕ) : Decidable (inWindow s w) := by
  unfold inWindow; infer_instance

/-- Fuel-driven unfolding of `page_stream`.  `S` is the page-size constant
(`PER_PAGE` in the source), `f` the page-fetch operation, the second argument
the current page number.  One step fetches page `page`, yields its items, and
stops when `page == 10` or the page holds fewer than `S` items; otherwise it
continues with `page + 1`.  The result pairs the yielded items with the trace
of page numbers passed to `f`.  Starting from page 1 the loop stops at page 10
at the latest, so the fuel of 10 supplied by `pageStream` is never
exhausted. -/
def pageStreamAux (S : ℕ) (f : ℕ → List α) : ℕ → ℕ → List α × List ℕ
  | 0, _ => ([], [])
  | fuel + 1, page =>
    let vs := f page
    if page = 10 ∨ vs.length < S then (vs, [page])
    else
      let r := pageStreamAux S f fuel (page + 1)
      (vs ++ r.1, page :: r.2)

/-- The `page_stream` primitive of `github_api.rs`: all items yielded by the
stream, in order, together with the page numbers fetched.  The source fixes
`S := PER_PAGE = 100`; it is kept as a parameter so the pagination behaviour
can be stated for an arbitrary page size. -/
def pageStream (S : ℕ) (f : ℕ → List α) : List α × List ℕ :=
  pageStreamAux S f 10 1

/-- A page-fetch operation serving the items `0, 1, …, N - 1` in consecutive
pages of (at most) `S` items, in order — the shape of the real search
endpoints, which serve a fixed result list page by page. -/
def servePages (S N : ℕ) (page : ℕ) : List ℕ :=
  ((List.range N).drop ((page - 1) * S)).take S

/-- `GithubApi::get_repositories` composed from its two layers: every window of
the bisection is paginated through `page_stream` with the window's derived
query.  Returns the yielded repositories (flattened in window order) and the
total number of page fetches issued. -/
def getRepositories (mn mx S : ℕ) (fetch : ℕ × ℕ → ℕ → List Repository) :
    List Repository × ℕ :=
  ((windows mn mx).flatMap fun w => (pageStream S (fetch w)).1,
   ((windows mn mx).map fun w => (pageStream S (fetch w)).2.length).sum)

/-- An HTTP response as consumed by `try_get_from_url` / `get_reset`: the
status code, the raw bytes of the `X-RateLimit-Reset` header (`none` when the
header is absent), and the body text. -/
structure HttpResponse where
  status : ℕ
  resetHeader : Option (List ℕ)
  body : String
deriving DecidableEq

/-- `reqwest::StatusCode::is_success`: status in `200..=299`. -/
def statusSuccess (s : ℕ) : Bool :=
  200 ≤ s && s ≤ 299

/-- `HeaderValue::to_str`: succeeds exactly when every byte of the header value
is visible ASCII or space (`32..=126`), returning the bytes as a string. -/
def headerToStr (bs : List ℕ) : Option (List ℕ) :=
  if bs.all fun b => 32 ≤ b && b ≤ 126 then some bs else none

/-- Rust's `str::parse::<u64>` on a byte string: an optional leading `+`
(byte 43) followed by at least one ASCII digit, with the value below `2^64`. -/
def parseU64 (s : List ℕ) : Option ℕ :=
  let t := match s with
    | 43 :: rest => rest
    | _ => s
  if t ≠ [] && t.all fun b => 48 ≤ b && b ≤ 57 then
    let v := t.foldl (fun a b => a * 10 + (b - 48)) 0
    if v < U64MOD then some v else none
  else none

/-- Function `get_reset` of `github_api.rs`: read the `X-RateLimit-Reset`
header, convert it to a string, parse it as a `u64`, subtract the current time
(`u64` arithmetic, which wraps modulo `2^64` on underflow), default to `0` when
any step fails, and add one (again wrapping).  `now` is the current Unix time
in seconds. -/
def getReset (now : ℕ) (resp : HttpResponse) : ℕ :=
  ((((resp.resetHeader.bind headerToStr).bind parseU64).map
      fun v => (v + U64MOD - now % U64MOD) % U64MOD).getD 0 + 1) % U64MOD

/-- Whether the body contains `pat` as a contiguous substring starting at the
front of `s`. -/
def matchesAt (pat : List Char) : List Char → Bool
  | [] => pat.isEmpty
  | c :: cs =>
    match pat with
    | [] => true
    | p :: ps => p == c && matchesAt ps cs

/-- Whether `pat` occurs as a contiguous substring of the list. -/
def containsPat (pat : List Char) : List Char → Bool
  | [] => pat.isEmpty
  | c :: cs => matchesAt pat (c :: cs) || containsPat pat cs

/-- Rust's `text.contains("secondary")` on the response body. -/
def hasSecondary (body : String) : Bool :=
  containsPat "secondary".data body.data

/-- Enum `ApiResult` of `github_api.rs`. -/
inductive ApiResult (T : Type) where
  | Success (t : T)
  | RateLimit (reset : ℕ)
  | SecondaryLimit
deriving DecidableEq

/-- The conditions on which `try_get_from_url` / `get_from_url` panic via
`unwrap`: a transport-level send failure, or a 2xx body that does not
deserialize.  A panic aborts the enumeration — it is never retried. -/
inductive Fatal where
  | connectionError
  | parseError
deriving DecidableEq

/-- Function `try_get_from_url` of `github_api.rs` on one attempt.  `parse`
models serde deserialization of the body into `T`; the attempt's input is
`none` for a transport-level connection failure (whose `unwrap` panics).
A 2xx response is `Success` of the parsed body (panicking if parsing fails);
a non-2xx body containing `"secondary"` is `SecondaryLimit`; any other non-2xx
is `RateLimit` with the wait computed by `get_reset`. -/
def tryGetFromUrl (parse : String → Option T) (now : ℕ)
    (resp? : Option HttpResponse) : Except Fatal (ApiResult T) :=
  match resp? with
  | none => .error .connectionError
  | some resp =>
    if statusSuccess resp.status then
      match parse resp.body with
      | some t => .ok (.Success t)
      | none => .error .parseError
    else
      let reset := getReset now resp
      if hasSecondary resp.body then .ok .SecondaryLimit
      else .ok (.RateLimit reset)

/-- The retry loop of `get_from_url`, driven by the list of successive outcomes
the server would give to the (identical, repeated) request.  The result is
`.error e` when an attempt panics, `.ok (some (sleeps, t))` when an attempt
succeeds — `sleeps` being the seconds slept before each retry, in order — and
`.ok none` when every supplied response was rate-limited, i.e. the loop is
still retrying. -/
def getFromUrlLoop (parse : String → Option T) (now : ℕ) :
    List (Option HttpResponse) → Except Fatal (Option (List ℕ × T))
  | [] => .ok none
  | a :: rest =>
    match tryGetFromUrl parse now a with
    | .error e => .error e
    | .ok (.Success t) => .ok (some ([], t))
    | .ok (.RateLimit w) =>
      (getFromUrlLoop parse now rest).map fun o => o.map fun p => (w :: p.1, p.2)
    | .ok .SecondaryLimit =>
      (getFromUrlLoop parse now rest).map fun o => o.map fun p => (60 :: p.1, p.2)

/-! ### Star-range bisection: windows -/

theorem windowsAux_head (mn fuel M : ℕ) {w : ℕ × ℕ}
    (h : (windowsAux mn fuel M).head? = some w) : w = (M / 2, M) := by
  cases fuel with
  | zero => simp [windowsAux] at h
  | succ k =>
    by_cases hc : M / 2 < mn
    · simp [windowsAux, hc] at h
    · simp [windowsAux, hc] at h
      exact h.symm

theorem windowsAux_chain (mn : ℕ) :
    ∀ fuel M, List.Chain' (fun a b => b.2 = a.1 ∧ inWindow a.1 a ∧ inWindow a.1 b)
      (windowsAux mn fuel M) := by
  intro fuel
  induction fuel with
  | zero => intro M; simp [windowsAux]
  | succ k ih =>
    intro M
    by_cases hc : M / 2 < mn
    · simp [windowsAux, hc]
    · simp only [windowsAux, if_neg hc]
      rcases hr : windowsAux mn k (M / 2) with _ | ⟨y, ys⟩
      · simp
      · have hy : y = (M / 2 / 2, M / 2) :=
          windowsAux_head mn k (M / 2) (by rw [hr]; rfl)
        rw [List.chain'_cons]
        refine ⟨?_, by rw [← hr]; exact ih (M / 2)⟩
        subst hy
        exact ⟨rfl, ⟨le_refl _, Nat.div_le_self M 2⟩,
          ⟨Nat.div_le_self (M / 2) 2, le_refl _⟩⟩

theorem windowsAux_mem (mn : ℕ) :
    ∀ fuel M, ∀ w ∈ windowsAux mn fuel M, mn ≤ w.1 ∧ w.1 = w.2 / 2 := by
  intro fuel
  induction fuel with
  | zero => intro M w hw; simp [windowsAux] at hw
  | succ k ih =>
    intro M w hw
    by_cases hc : M / 2 < mn
    · simp [windowsAux, hc] at hw
    · simp only [windowsAux, if_neg hc, List.mem_cons] at hw
      rcases hw with rfl | hw
      · exact ⟨Nat.le_of_not_lt hc, rfl⟩
      · exact ih (M / 2) w hw

/-- C1 (counterexample): for the program's own starting query
`[1000, 128000]`, the second window's upper bound equals the first window's
lower bound (64000), not that lower bound minus 1, and the star count 64000
lies in both windows — the windows are not non-overlapping. -/
theorem C1_counterexample :
    windows 1000 128000 =
      [(64000, 128000), (32000, 64000), (16000, 32000), (8000, 16000),
       (4000, 8000), (2000, 4000), (1000, 2000)] ∧
    inWindow 64000 (64000, 128000) ∧ inWindow 64000 (32000, 64000) ∧
    (64000 : ℕ) ≠ 64000 - 1 := by
  refine ⟨by decide, by decide, by decide, by decide⟩

/-- C1 (amended): for every starting repository query, consecutive star
windows produced by `get_repositories` satisfy: the new window's upper bound
equals the previous window's lower bound (not that bound minus 1), so the two
windows overlap exactly at that shared star count, which lies in both. -/
theorem C1_windows_share_boundary (minStars maxStars : ℕ) :
    List.Chain' (fun a b => b.2 = a.1 ∧ inWindow a.1 a ∧ inWindow a.1 b)
      (windows minStars maxStars) :=
  windowsAux_chain minStars (maxStars + 1) maxStars

/-- C2: whenever `min_stars ≤ max_stars`, every bisection window `w` used by
`get_repositories` has lower bound `max(min_stars, w.max / 2)` (its upper
bound being the current `max_stars` of the unfold state, which the chain
structure of `C1_windows_share_boundary` records); and for the program's
query `[1000, 128000]` the windows are strictly decreasing and their union is
exactly the star range `[1000, 128000]`. -/
theorem C2_window_bounds (mn mx : ℕ) (hle : mn ≤ mx) :
    (∀ w ∈ windows mn mx, w.1 = Nat.max mn (w.2 / 2)) ∧
    List.Chain' (fun a b => b.2 < a.2 ∧ b.1 < a.1) (windows 1000 128000) ∧
    (∀ s : ℕ, 1000 ≤ s ∧ s ≤ 128000 ↔
      ∃ w ∈ windows 1000 128000, w.1 ≤ s ∧ s ≤ w.2) := by
  refine ⟨?_, ?_, ?_⟩
  · intro w hw
    obtain ⟨h1, h2⟩ := windowsAux_mem mn (mx + 1) mx w hw
    rw [← h2]
    exact (Nat.max_eq_right h1).symm
  · rw [show windows 1000 128000 =
      [(64000, 128000), (32000, 64000), (16000, 32000), (8000, 16000),
       (4000, 8000), (2000, 4000), (1000, 2000)] from by decide]
    simp only [List.chain'_cons, List.chain'_singleton]
    norm_num
  · intro s
    rw [show windows 1000 128000 =
      [(64000, 128000), (32000, 64000), (16000, 32000), (8000, 16000),
       (4000, 8000), (2000, 4000), (1000, 2000)] from by decide]
    simp only [List.mem_cons, List.not_mem_nil, or_false, exists_eq_or_imp,
      exists_eq_left]
    omega

/-- Witness for C2 at the program's own query. -/
theorem C2_window_bounds_witness :
    1000 ≤ 128000 ∧ ∀ w ∈ windows 1000 128000, w.1 = Nat.max 1000 (w.2 / 2) :=
  ⟨by decide, (C2_window_bounds 1000 128000 (by decide)).1⟩

/-- C9: when `max_stars / 2 < min_stars` (for example
`min_stars = max_stars = 1000`), `get_repositories` produces no windows at
all: it yields the empty sequence and performs zero page fetches, even though
`min_stars ≤ max_stars` makes the star range non-empty. -/
theorem C9_degenerate_range_empty (mn mx S : ℕ)
    (fetch : ℕ × ℕ → ℕ → List Repository) (hle : mn ≤ mx) (h : mx / 2 < mn) :
    getRepositories mn mx S fetch = ([], 0) := by
  have hw : windows mn mx = [] := by
    unfold windows windowsAux
    simp [h]
  simp [getRepositories, hw]

/-- Witness for C9 at `min_stars = max_stars = 1000`. -/
theorem C9_degenerate_range_empty_witness :
    1000 ≤ 1000 ∧ 1000 / 2 < 1000 ∧
    getRepositories 1000 1000 100 (fun _ _ => []) = ([], 0) :=
  ⟨by decide, by decide,
    C9_degenerate_range_empty 1000 1000 100 (fun _ _ => []) (by decide) (by decide)⟩

/-! ### Pagination -/

theorem pageStreamAux_chunks_items (S : ℕ) (hS : 0 < S) (L : List ℕ) :
    ∀ fuel pg, fuel + pg = 10 →
      (pageStreamAux S (fun p => (L.drop ((p - 1) * S)).take S) fuel (pg + 1)).1
        = (L.drop (pg * S)).take (min (L.length - pg * S) (fuel * S)) := by
  intro fuel
  induction fuel with
  | zero => intro pg _; simp [pageStreamAux]
  | succ k ih =>
    intro pg hpg
    rw [pageStreamAux]
    simp only [Nat.add_sub_cancel]
    have hdl : (L.drop (pg * S)).length = L.length - pg * S := List.length_drop _ _
    have hlt : ((L.drop (pg * S)).take S).length = min S (L.length - pg * S) := by
      rw [List.length_take, hdl]
    by_cases hc : L.length - pg * S < S
    · have hcond : pg + 1 = 10 ∨ ((L.drop (pg * S)).take S).length < S := by
        right; omega
      rw [if_pos hcond]
      have hS' : S ≤ (k + 1) * S := Nat.le_mul_of_pos_left S (Nat.succ_pos k)
      have hmin : min (L.length - pg * S) ((k + 1) * S) = L.length - pg * S := by
        omega
      show (L.drop (pg * S)).take S = _
      rw [hmin, ← hdl, List.take_length, List.take_of_length_le (by omega)]
    · by_cases hk : k = 0
      · subst hk
        have hpg9 : pg = 9 := by omega
        rw [if_pos (Or.inl (by omega))]
        show (L.drop (pg * S)).take S = _
        have hmin : min (L.length - pg * S) (1 * S) = S := by omega
        rw [hmin]
      · have hcond : ¬(pg + 1 = 10 ∨ ((L.drop (pg * S)).take S).length < S) := by
          push_neg
          exact ⟨by omega, by omega⟩
        rw [if_neg hcond]
        show (L.drop (pg * S)).take S ++
            (pageStreamAux S (fun p => (L.drop ((p - 1) * S)).take S) k (pg + 1 + 1)).1
          = _
        rw [ih (pg + 1) (by omega)]
        have e1 : L.drop ((pg + 1) * S) = (L.drop (pg * S)).drop S := by
          rw [List.drop_drop]
          congr 1
          ring
        rw [e1, ← List.take_add]
        congr 1
        have e2 : (pg + 1) * S = pg * S + S := Nat.succ_mul pg S
        have e3 : (k + 1) * S = k * S + S := Nat.succ_mul k S
        omega

theorem pageStreamAux_chunks_trace (S : ℕ) (hS : 0 < S) (L : List ℕ) :
    ∀ fuel pg, fuel + pg = 10 →
      (pageStreamAux S (fun p => (L.drop ((p - 1) * S)).take S) fuel (pg + 1)).2.length
        = min fuel ((L.length - pg * S) / S + 1) := by
  intro fuel
  induction fuel with
  | zero => intro pg _; simp [pageStreamAux]
  | succ k ih =>
    intro pg hpg
    rw [pageStreamAux]
    simp only [Nat.add_sub_cancel]
    have hdl : (L.drop (pg * S)).length = L.length - pg * S := List.length_drop _ _
    have hlt : ((L.drop (pg * S)).take S).length = min S (L.length - pg * S) := by
      rw [List.length_take, hdl]
    by_cases hc : L.length - pg * S < S
    · have hcond : pg + 1 = 10 ∨ ((L.drop (pg * S)).take S).length < S := by
        right; omega
      rw [if_pos hcond]
      have hdiv : (L.length - pg * S) / S = 0 := Nat.div_eq_of_lt hc
      show 1 = _
      omega
    · by_cases hk : k = 0
      · subst hk
        rw [if_pos (Or.inl (by omega))]
        show 1 = _
        exact (Nat.min_eq_left (Nat.succ_le_succ (Nat.zero_le _))).symm
      · have hcond : ¬(pg + 1 = 10 ∨ ((L.drop (pg * S)).take S).length < S) := by
          push_neg
          exact ⟨by omega, by omega⟩
        rw [if_neg hcond]
        show (pageStreamAux S (fun p => (L.drop ((p - 1) * S)).take S) k (pg + 1 + 1)).2.length + 1
          = _
        rw [ih (pg + 1) (by omega)]
        have e2 : (pg + 1) * S = pg * S + S := Nat.succ_mul pg S
        have hdiv : (L.length - pg * S) / S = (L.length - pg * S - S) / S + 1 :=
          Nat.div_eq_sub_div hS (by omega)
        have e4 : L.length - (pg + 1) * S = L.length - pg * S - S := by omega
        rw [e4, hdiv]
        omega

/-- C3 (counterexample): for page size 100 and exactly 100 items (one full
page), `page_stream` makes 2 page fetches — the full first page forces a
second fetch that comes back empty — while the claimed count
`⌈min(N, 10·S) / S⌉` is 1. -/
theorem C3_counterexample :
    (pageStream 100 (servePages 100 100)).1 = List.range 100 ∧
    (pageStream 100 (servePages 100 100)).2.length = 2 ∧
    (min 100 (10 * 100) + 100 - 1) / 100 = 1 := by
  refine ⟨by decide, by decide, by decide⟩

/-- C3 (amended): for every positive page size `S` and item count `N`, with a
page-fetch operation serving the `N` items in consecutive `S`-sized pages,
`page_stream` yields exactly `min N (10·S)` items in the original order, and
invokes the page-fetch operation exactly `min 10 (⌊N/S⌋ + 1)` times: the loop
only stops after fetching a short page (or the 10th), so when `N` is a
multiple of `S` below `10·S` (including `N = 0`) it makes one fetch more than
`⌈N/S⌉`. -/
theorem C3_paginate_yield (S N : ℕ) (hS : 0 < S) :
    (pageStream S (servePages S N)).1 = List.range (min N (10 * S)) ∧
    (pageStream S (servePages S N)).2.length = min 10 (N / S + 1) := by
  constructor
  · have h := pageStreamAux_chunks_items S hS (List.range N) 10 0 rfl
    simp only [Nat.zero_mul, List.drop_zero, List.length_range, Nat.sub_zero] at h
    rw [List.take_range] at h
    have e : min (min N (10 * S)) N = min N (10 * S) := by omega
    rw [e] at h
    exact h
  · have h := pageStreamAux_chunks_trace S hS (List.range N) 10 0 rfl
    simp only [Nat.zero_mul, Nat.sub_zero, List.length_range] at h
    exact h

/-- Witness for C3 (amended) at `S = 100`, `N = 250`. -/
theorem C3_paginate_yield_witness :
    0 < 100 ∧
    ((pageStream 100 (servePages 100 250)).1 = List.range (min 250 (10 * 100)) ∧
     (pageStream 100 (servePages 100 250)).2.length = min 10 (250 / 100 + 1)) :=
  ⟨by decide, C3_paginate_yield 100 250 (by decide)⟩

theorem pageStreamAux_full {α : Type} (S : ℕ) (f : ℕ → List α)
    (hf : ∀ p, 1 ≤ p → p ≤ 10 → (f p).length = S) :
    ∀ fuel pg, fuel + pg = 10 → 1 ≤ fuel →
      (pageStreamAux S f fuel (pg + 1)).2 = List.range' (pg + 1) fuel := by
  intro fuel
  induction fuel with
  | zero => intro pg _ h1; omega
  | succ k ih =>
    intro pg hpg _
    rw [pageStreamAux]
    by_cases hk : k = 0
    · subst hk
      rw [if_pos (Or.inl (by omega))]
      rfl
    · have hcond : ¬(pg + 1 = 10 ∨ (f (pg + 1)).length < S) := by
        push_neg
        exact ⟨by omega, by rw [hf (pg + 1) (by omega) (by omega)]⟩
      rw [if_neg hcond]
      show (pg + 1) :: (pageStreamAux S f k (pg + 1 + 1)).2 = _
      rw [ih (pg + 1) (by omega) (by omega)]
      rfl

/-- C7: for every page-fetch operation returning a full page (page-size many
items) on each of the pages 1 through 10, `page_stream` fetches exactly the
pages 1, 2, …, 10 and never invokes the page-fetch operation with a page
number greater than 10. -/
theorem C7_page_ceiling {α : Type} (S : ℕ) (f : ℕ → List α)
    (hf : ∀ p, 1 ≤ p → p ≤ 10 → (f p).length = S) :
    (pageStream S f).2 = List.range' 1 10 ∧ ∀ p ∈ (pageStream S f).2, p ≤ 10 := by
  have h : (pageStream S f).2 = List.range' 1 10 :=
    pageStreamAux_full S f hf 10 0 rfl (by omega)
  refine ⟨h, ?_⟩
  rw [h]
  decide

/-- Witness for C7 with the constantly-full fetch operation at `S = 100`. -/
theorem C7_page_ceiling_witness :
    (∀ p, 1 ≤ p → p ≤ 10 → ((fun _ : ℕ => List.range 100) p).length = 100) ∧
    (pageStream 100 (fun _ : ℕ => List.range 100)).2 = List.range' 1 10 :=
  ⟨fun p _ _ => by simp,
   (C7_page_ceiling 100 (fun _ : ℕ => List.range 100) (fun p _ _ => by simp)).1⟩

/-! ### Transport -/

/-- C4 (code bug): for a non-2xx response whose `X-RateLimit-Reset` value
(here 100) is earlier than the current time (here 200), `get_reset` does not
floor the difference at zero: the unchecked `u64` subtraction wraps (panicking
in debug builds), giving a wait of `2^64 - 100 + 1` seconds instead of the
specified `(100 - 200 floored at 0) + 1 = 1` second. -/
theorem C4_reset_underflow :
    getReset 200 ⟨403, some [49, 48, 48], "API rate limit exceeded"⟩
        = 18446744073709551517 ∧
    (100 - 200 : ℕ) + 1 = 1 ∧
    (18446744073709551517 : ℕ) ≠ 1 := by
  refine ⟨by decide, by decide, by decide⟩

/-- C5: `try_get_from_url` classifies a 2xx response with a parseable body as
`Success` of the parsed body; a non-2xx response whose body contains the
substring `"secondary"` as `SecondaryLimit`; and every other non-2xx response
as `RateLimit` with the wait computed by `get_reset`. -/
theorem C5_classification {T : Type} (parse : String → Option T) (now : ℕ)
    (resp : HttpResponse) :
    (statusSuccess resp.status = true → ∀ t, parse resp.body = some t →
      tryGetFromUrl parse now (some resp) = .ok (.Success t)) ∧
    (statusSuccess resp.status = false → hasSecondary resp.body = true →
      tryGetFromUrl parse now (some resp) = .ok .SecondaryLimit) ∧
    (statusSuccess resp.status = false → hasSecondary resp.body = false →
      tryGetFromUrl parse now (some resp) = .ok (.RateLimit (getReset now resp))) := by
  refine ⟨?_, ?_, ?_⟩
  · intro hs t ht
    simp [tryGetFromUrl, hs, ht]
  · intro hs h2
    simp [tryGetFromUrl, hs, h2]
  · intro hs h2
    simp [tryGetFromUrl, hs, h2]

/-- Witness for C5 on three concrete responses (2xx, secondary-limited,
primary-limited). -/
theorem C5_classification_witness :
    tryGetFromUrl (fun s : String => if s = "42" then some 42 else none) 0
        (some ⟨200, none, "42"⟩) = .ok (.Success 42) ∧
    tryGetFromUrl (fun s : String => if s = "42" then some 42 else none) 0
        (some ⟨403, some [49, 48, 48], "You have exceeded a secondary rate limit"⟩)
      = .ok .SecondaryLimit ∧
    tryGetFromUrl (fun s : String => if s = "42" then some 42 else none) 0
        (some ⟨403, none, "API rate limit exceeded"⟩)
      = .ok (.RateLimit (getReset 0 ⟨403, none, "API rate limit exceeded"⟩)) :=
  ⟨(C5_classification _ 0 _).1 (by decide) 42 (by decide),
   (C5_classification _ 0 _).2.1 (by decide) (by decide),
   (C5_classification _ 0 _).2.2 (by decide) (by decide)⟩

/-- C6: the retry loop of `get_from_url`, on a primary-limited response,
sleeps the wait computed by `get_reset` and then processes the next response
to the identical repeated request exactly as before; on a secondary-limited
response it sleeps exactly 60 seconds regardless of any rate-limit header
present; and after any finite sequence of rate-limited responses it is still
retrying — it returns only on `Success`, with no maximum retry count. -/
theorem C6_retry_policy {T : Type} (parse : String → Option T) (now : ℕ)
    (r : HttpResponse) (rest : List (Option HttpResponse)) :
    (statusSuccess r.status = false → hasSecondary r.body = false →
      getFromUrlLoop parse now (some r :: rest)
        = (getFromUrlLoop parse now rest).map fun o =>
            o.map fun p => (getReset now r :: p.1, p.2)) ∧
    (statusSuccess r.status = false → hasSecondary r.body = true →
      getFromUrlLoop parse now (some r :: rest)
        = (getFromUrlLoop parse now rest).map fun o =>
            o.map fun p => (60 :: p.1, p.2)) ∧
    (∀ rs : List (Option HttpResponse),
      (∀ x ∈ rs, ∃ resp, x = some resp ∧ statusSuccess resp.status = false) →
      getFromUrlLoop parse now rs = .ok none) := by
  refine ⟨?_, ?_, ?_⟩
  · intro hs h2
    simp [getFromUrlLoop, tryGetFromUrl, hs, h2]
  · intro hs h2
    simp [getFromUrlLoop, tryGetFromUrl, hs, h2]
  · intro rs hrs
    induction rs with
    | nil => simp [getFromUrlLoop]
    | cons a tl ih =>
      obtain ⟨resp, rfl, hresp⟩ := hrs a (List.mem_cons_self a tl)
      have htl := ih fun x hx => hrs x (List.mem_cons_of_mem _ hx)
      by_cases h2 : hasSecondary resp.body
      · simp [getFromUrlLoop, tryGetFromUrl, hresp, h2, htl, Except.map]
      · simp [getFromUrlLoop, tryGetFromUrl, hresp, h2, htl, Except.map]

/-- Witness for C6: a secondary-limited response carrying a rate-limit header
still causes a 60-second sleep, and two rate-limited responses leave the loop
still retrying. -/
theorem C6_retry_policy_witness :
    statusSuccess 403 = false ∧
    getFromUrlLoop (fun s : String => if s = "ok" then some 0 else none) 50
        (some ⟨403, some [49, 48, 48], "You have exceeded a secondary rate limit"⟩
          :: [some ⟨200, none, "ok"⟩])
      = (getFromUrlLoop (fun s : String => if s = "ok" then some 0 else none) 50
          [some ⟨200, none, "ok"⟩]).map (fun o => o.map fun p => (60 :: p.1, p.2)) ∧
    getFromUrlLoop (fun s : String => if s = "ok" then some 0 else none) 50
        [some ⟨403, none, "rate limit exceeded"⟩,
         some ⟨429, some [49, 48, 48], "You have exceeded a secondary rate limit"⟩]
      = .ok none :=
  ⟨by decide,
   (C6_retry_policy _ 50 _ _).2.1 (by decide) (by decide),
   (C6_retry_policy (fun s : String => if s = "ok" then some 0 else none) 50
      ⟨403, none, "rate limit exceeded"⟩ []).2.2 _
      (by
        intro x hx
        simp only [List.mem_cons, List.not_mem_nil, or_false] at hx
        rcases hx with rfl | rfl
        · exact ⟨_, rfl, by decide⟩
        · exact ⟨_, rfl, by decide⟩)⟩

/-- C8: a transport-level connection failure, or a 2xx response whose body
fails to parse, makes the retry loop terminate at once with an unrecoverable
error — no sleep, no retry, regardless of what later responses would have
been — unlike rate-limit outcomes, which are always retried. -/
theorem C8_fatal {T : Type} (parse : String → Option T) (now : ℕ)
    (rest : List (Option HttpResponse)) :
    getFromUrlLoop parse now (none :: rest) = .error .connectionError ∧
    (∀ r : HttpResponse, statusSuccess r.status = true → parse r.body = none →
      getFromUrlLoop parse now (some r :: rest) = .error .parseError) := by
  constructor
  · simp [getFromUrlLoop, tryGetFromUrl]
  · intro r hs hp
    simp [getFromUrlLoop, tryGetFromUrl, hs, hp]

/-- Witness for C8: an unparseable 2xx body aborts the loop even though a
later response would have succeeded. -/
theorem C8_fatal_witness :
    statusSuccess 200 = true ∧
    getFromUrlLoop (fun _ : String => (none : Option ℕ)) 0
        (some ⟨200, none, "not json"⟩ :: [some ⟨200, none, "later"⟩])
      = .error .parseError :=
  ⟨by decide, (C8_fatal _ 0 _).2 ⟨200, none, "not json"⟩ (by decide) rfl⟩

/-- C10: when the `X-RateLimit-Reset` header is absent, holds bytes that are
not a valid (visible-ASCII) string, or holds a string that does not parse as a
`u64`, the computed primary-limit wait is exactly `0 + 1 = 1` second. -/
theorem C10_missing_header (now : ℕ) (resp : HttpResponse)
    (h : resp.resetHeader = none ∨
      (∃ bs, resp.resetHeader = some bs ∧ headerToStr bs = none) ∨
      (∃ bs s, resp.resetHeader = some bs ∧ headerToStr bs = some s ∧
        parseU64 s = none)) :
    getReset now resp = 1 := by
  have hnone : (resp.resetHeader.bind headerToStr).bind parseU64 = none := by
    rcases h with h | ⟨bs, hbs, hh⟩ | ⟨bs, s, hbs, hh, hp⟩
    · simp [h]
    · simp [hbs, hh]
    · simp [hbs, hh, hp]
  simp [getReset, hnone]
  decide

/-- Witness for C10: an absent header, a non-ASCII header byte, and a
non-numeric header string each give a 1-second wait. -/
theorem C10_missing_header_witness :
    getReset 12345 ⟨403, none, "rate limited"⟩ = 1 ∧
    getReset 0 ⟨403, some [200], "rate limited"⟩ = 1 ∧
    getReset 0 ⟨403, some [104, 105], "rate limited"⟩ = 1 :=
  ⟨C10_missing_header 12345 _ (Or.inl rfl),
   C10_missing_header 0 _ (Or.inr (Or.inl ⟨[200], rfl, by decide⟩)),
   C10_missing_header 0 _
     (Or.inr (Or.inr ⟨[104, 105], [104, 105], rfl, by decide, by decide⟩))⟩

end Ghcrawl
